import Mathlib

set_option maxHeartbeats 1000000

namespace Pitch

/-!
Shallow embedding of the Pitch card-game engine: the card model (card.py),
the hand discard/misdeal engine (hand.py) and the bid/play strategy layer
(player.py), together with theorems checking the specification's claims.
-/

/-- The five suit values accepted by the Card constructor. -/
inductive Suit where
  | Spades | Hearts | Clubs | Diamonds | Joker
deriving DecidableEq

/-- The runtime card symbols: the keys of `card_reference` that a constructed
card can carry (`A`..`N2` the ordinary cards, `X` the off-jack marker,
`B`/`L` the jokers, `NT` the non-trump marker `N`, `NP` the no-play marker). -/
inductive Sym where
  | A | K | Q | J | X | B | L | T10 | N9 | N8 | N7 | N6 | N5 | N4 | N3 | N2 | NT | NP
deriving DecidableEq

/-- The `rank` column of `card_reference` in card.py. -/
def card_rank : Sym → ℕ
  | .A => 17 | .K => 16 | .Q => 15 | .J => 14 | .X => 13 | .B => 12 | .L => 11
  | .T10 => 10 | .N9 => 9 | .N8 => 8 | .N7 => 7 | .N6 => 6 | .N5 => 5 | .N4 => 4
  | .N3 => 3 | .N2 => 2 | .NT => 0 | .NP => 0

/-- The `points` column of `card_reference` in card.py. -/
def card_points : Sym → ℕ
  | .A => 1 | .J => 1 | .X => 1 | .B => 1 | .L => 1 | .T10 => 1 | .N3 => 3 | .N2 => 1
  | _ => 0

/-- A Card object: immutable identity (`baseSym`, `suit`; `baseSym` stands for
`base_symbol(self.name)`, which together with the suit determines
`short_name`) plus the mutable derived fields written by `set_trump`. -/
structure Card where
  baseSym : Sym
  suit : Suit
  symbol : Sym
  rank : ℕ
  points : ℕ
  trump_suit : Option Suit
deriving DecidableEq

/-- `Card.__init__`: validation always succeeds on the enumerated types; the
derived fields take their base (non-trump) values. -/
def mkCard (n : Sym) (s : Suit) : Card :=
  { baseSym := n, suit := s, symbol := n, rank := card_rank n, points := 0,
    trump_suit := none }

/-- The color-pair table used by `is_trump` and `get_trump_symbol`:
Spades↔Clubs and Diamonds↔Hearts. -/
def color_paired (cardSuit querySuit : Suit) : Bool :=
  match cardSuit, querySuit with
  | .Spades, .Clubs => true
  | .Clubs, .Spades => true
  | .Diamonds, .Hearts => true
  | .Hearts, .Diamonds => true
  | _, _ => false

/-- `Card.is_trump(suit=None)`: falls back to the card's `trump_suit` when no
suit is supplied; then suit match, joker suit, current symbol `X`, or a
color-paired Jack. -/
def is_trump (c : Card) (suit : Option Suit) : Bool :=
  match (match suit with | none => c.trump_suit | some s => some s) with
  | none => false
  | some s =>
    if c.suit = s ∨ c.suit = .Joker then true
    else if c.symbol = .X then true
    else if c.baseSym = .J then color_paired c.suit s
    else false

/-- `Card.get_trump_symbol(suit)`. -/
def get_trump_symbol (c : Card) (s : Suit) : Sym :=
  if is_trump c (some s) then
    if c.baseSym = .J then
      if color_paired c.suit s then .X else .J
    else c.symbol
  else .NT

/-- `Card.set_trump(suit=None)`: reset to base attributes, then if a suit is
given, recompute symbol/rank/points from the trump symbol. -/
def set_trump (c : Card) (s : Option Suit) : Card :=
  let c1 : Card :=
    { c with symbol := c.baseSym, rank := card_rank c.baseSym,
             points := 0, trump_suit := none }
  match s with
  | none => c1
  | some st =>
    let sym := get_trump_symbol c1 st
    { c1 with symbol := sym, rank := card_rank sym, points := card_points sym,
              trump_suit := some st }

/-- `Card.__lt__`: pure rank comparison. -/
def card_lt (a b : Card) : Bool := a.rank < b.rank

/-- `Card.__gt__`: pure rank comparison. -/
def card_gt (a b : Card) : Bool := b.rank < a.rank

/-- `Card.__eq__`: compares `short_name`, i.e. the concatenation of the base
symbol and the suit symbol, which identifies exactly the pair
(`baseSym`, `suit`). -/
def card_eq (a b : Card) : Bool := a.baseSym = b.baseSym ∧ a.suit = b.suit

example : is_trump (set_trump (mkCard .J .Spades) (some .Clubs)) none = true := by decide
example : (set_trump (mkCard .J .Spades) (some .Clubs)).rank = 13 := by decide
example : (set_trump (mkCard .N3 .Hearts) (some .Hearts)).points = 3 := by decide
example : (set_trump (mkCard .B .Joker) (some .Hearts)).points = 1 := by decide
example : is_trump (mkCard .J .Hearts) (some .Clubs) = false := by decide

/-! ## Hand operations (hand.py) -/

/-- The descending-rank ordering used by `Hand.sort_by_rank` (non-strict, so
insertion sort with it is stable, like Python's `list.sort`). -/
def rank_ge (a b : Card) : Prop := b.rank ≤ a.rank

instance : DecidableRel rank_ge := fun a b => inferInstanceAs (Decidable (b.rank ≤ a.rank))

instance : IsTotal Card rank_ge := ⟨fun a b => Nat.le_total b.rank a.rank⟩

instance : IsTrans Card rank_ge := ⟨fun _ _ _ hab hbc => Nat.le_trans hbc hab⟩

/-- `Hand.sort_by_rank`: stable sort, descending by rank. -/
def sort_by_rank (l : List Card) : List Card := l.insertionSort rank_ge

/-- Python list slicing `l[:k]` for an `int` bound `k`: a negative bound counts
from the end of the list. -/
def pyTake (l : List Card) (k : ℤ) : List Card :=
  if 0 ≤ k then l.take k.toNat else l.take ((l.length : ℤ) + k).toNat

/-- The hand after `set_trump(suit)` on every card, keeping only trumps
(steps 1 and 3 of `discard_non_trumps`). -/
def trump_filter (suit : Suit) (hand : List Card) : List Card :=
  (hand.map (fun c => set_trump c (some suit))).filter (fun c => is_trump c (some suit))

/-- The saved non-trump cards of the bidder (step 2 of `discard_non_trumps`). -/
def nontrump_filter (suit : Suit) (hand : List Card) : List Card :=
  (hand.map (fun c => set_trump c (some suit))).filter (fun c => ! is_trump c (some suit))

/-- Cards with nonzero points. -/
def point_cards (cards : List Card) : List Card := cards.filter (fun c => 0 < c.points)

/-- Cards with zero points. -/
def non_point_cards (cards : List Card) : List Card := cards.filter (fun c => c.points = 0)

/-- The overflow rule of `discard_non_trumps`: with more than 6 trumps, keep
all point cards plus the slice `non_point_cards[:6-len(point_cards)]` of the
non-point cards sorted descending by rank. -/
def overflow_trim (cards : List Card) : List Card :=
  if 6 < cards.length then
    point_cards cards ++
      pyTake (sort_by_rank (non_point_cards cards)) (6 - ((point_cards cards).length : ℤ))
  else cards

/-- The bidder padding step of `discard_non_trumps`: refill to 6 cards from
the saved non-trump list, in original order. -/
def pad_hand (saved cards : List Card) : List Card :=
  if cards.length < 6 then cards ++ saved.take (6 - cards.length) else cards

/-- `Hand.discard_non_trumps(suit, is_bidder)`: trump the hand, drop
non-trumps (saving them when bidder), apply the overflow rule, pad the bidder,
sort descending, and raise the misdeal `ValueError` when more than 6 cards
remain. -/
def discard_non_trumps (suit : Suit) (is_bidder : Bool) (hand : List Card) :
    Except String (List Card) :=
  let trumps := trump_filter suit hand
  let trimmed := overflow_trim trumps
  let padded := if is_bidder then pad_hand (nontrump_filter suit hand) trimmed else trimmed
  let final := sort_by_rank padded
  if 6 < final.length then Except.error "Misdeal: Too many point cards in hand."
  else Except.ok final

/-! ## Bid engine (player.py, `default_bid_strategy`) -/

/-- Rounding to the nearest integer, ties to even, as Python's `round`. -/
def roundHalfEven (q : ℚ) : ℤ :=
  let f := ⌊q⌋
  let r := q - f
  if r < 1/2 then f else if 1/2 < r then f + 1 else if f % 2 = 0 then f else f + 1

/-- Python `round(q, 2)`. -/
def round2 (q : ℚ) : ℚ := (roundHalfEven (100 * q) : ℚ) / 100

/-- Python `int(q)`: truncation toward zero. -/
def pyInt (q : ℚ) : ℤ := if 0 ≤ q then ⌊q⌋ else -⌊-q⌋

/-- One suit's evaluation in the bid loop: set trump tentatively on the whole
hand, sum the strength-table entries of the resulting ranks, round to two
decimal places. -/
def suit_strength (table : ℕ → ℚ) (hand : List Card) (s : Suit) : ℚ :=
  round2 (((hand.map (fun c => set_trump c (some s))).map (fun c => table c.rank)).sum)

/-- One iteration of the suit loop in `default_bid_strategy`: the incumbent is
replaced when it is falsy (`not self.bid_value`, i.e. a 0 value) or when the
new suit's strength is strictly greater. -/
def step_bid (acc : ℚ × Suit) (sb : ℚ) (s : Suit) : ℚ × Suit :=
  if acc.1 = 0 ∨ acc.1 < sb then (sb, s) else acc

/-- The suit loop of `default_bid_strategy` over Spades, Hearts, Clubs,
Diamonds; the initial `None` incumbent is always replaced by Spades. -/
def choose_bid (table : ℕ → ℚ) (hand : List Card) : ℚ × Suit :=
  step_bid
    (step_bid
      (step_bid (suit_strength table hand .Spades, Suit.Spades)
        (suit_strength table hand .Hearts) .Hearts)
      (suit_strength table hand .Clubs) .Clubs)
    (suit_strength table hand .Diamonds) .Diamonds

/-- One step of the selection rule claimed by the specification for the bid
loop: the incumbent is replaced only when the new suit's strength is strictly
greater. Stated from the spec's words for comparison with `step_bid`. -/
def spec_step (acc : ℚ × Suit) (sb : ℚ) (s : Suit) : ℚ × Suit :=
  if acc.1 < sb then (sb, s) else acc

/-- The suit selection claimed by the specification: scan the four suits in
order keeping the strictly-greatest strength, so the first suit attaining the
maximum wins. Stated from the spec's words for comparison with `choose_bid`. -/
def spec_first_max_suit (table : ℕ → ℚ) (hand : List Card) : ℚ × Suit :=
  spec_step
    (spec_step
      (spec_step (suit_strength table hand .Spades, Suit.Spades)
        (suit_strength table hand .Hearts) .Hearts)
      (suit_strength table hand .Clubs) .Clubs)
    (suit_strength table hand .Diamonds) .Diamonds

/-- `Player.is_partner`: a falsy bidder position (absent or 0) is never a
partner; otherwise compare against `(bidder + 2) % 4`. -/
def is_partner (pos : Option ℤ) (bidder : Option ℤ) : Bool :=
  match bidder with
  | none => false
  | some b => if b = 0 then false else pos = some ((b + 2) % 4)

/-- The clamp `if self.bid_value < 5: self.bid_value = 0` (minimum bid). -/
def clamp_min_bid (t : ℤ) : ℤ := if t < 5 then 0 else t

/-- The final overbid logic of `default_bid_strategy`: pass when not above the
current bid; bid exactly one over a positive current bid; never open with 7. -/
def finalize_bid (current_bid t : ℤ) : ℤ :=
  if t ≤ current_bid then 0
  else if 0 < current_bid then current_bid + 1
  else if 7 ≤ t then 6 else t

/-- `Player.default_bid_strategy`: the whole pipeline, returning the final bid
value together with the recorded `bidding_suit`. -/
def default_bid_strategy (pos : Option ℤ) (aggressiveness restraint : ℚ)
    (table : ℕ → ℚ) (hand : List Card) (current_bid : ℤ) (current_bidder : Option ℤ) :
    ℤ × Suit :=
  let bs := choose_bid table hand
  let v1 := bs.1 + aggressiveness
  let v2 := if is_partner pos current_bidder then max 0 (v1 - restraint) else v1
  let t := clamp_min_bid (pyInt v2)
  (finalize_bid current_bid t, bs.2)

/-! ## Play strategy library (player.py) -/

/-- The decision context handed to a play strategy through `game_state`:
trump suit, whether trump was led, and the cards already played in the trick
(with gaps for players yet to play). -/
structure GameState where
  trumps : Option Suit
  trumps_led : Bool
  trick : List (Option Card)

/-- Python's `min`/`max` with a key: scan the list, replacing the incumbent
exactly when `better` holds, so the first optimum wins, as in Python. -/
def pyBest (better : Card → Card → Bool) : List Card → Option Card
  | [] => none
  | x :: xs => some (xs.foldl (fun acc c => if better c acc then c else acc) x)

/-- `min(cards, key=lambda card: card.rank)`. -/
def min_rank (l : List Card) : Option Card := pyBest (fun c acc => c.rank < acc.rank) l

/-- `max(cards, key=lambda card: card.rank)`. -/
def max_rank (l : List Card) : Option Card := pyBest (fun c acc => acc.rank < c.rank) l

/-- `min(cards, key=lambda card: (card.points, card.rank))`. -/
def min_points_rank (l : List Card) : Option Card :=
  pyBest (fun c acc => c.points < acc.points ∨ (c.points = acc.points ∧ c.rank < acc.rank)) l

/-- `min(cards, key=lambda card: card.points)`. -/
def min_points (l : List Card) : Option Card := pyBest (fun c acc => c.points < acc.points) l

/-- The highest rank among the cards already played in the trick, 0 when none
(`max(played_ranks, default=0)`). -/
def highest_played_rank (trick : List (Option Card)) : ℕ :=
  ((trick.filterMap id).map (fun c => c.rank)).foldl max 0

/-- An early return in a Python strategy body: if the first candidate stage
produced a card, return it, otherwise continue with the rest of the body. -/
def fallback (o e : Option Card) : Option Card :=
  match o with
  | some c => some c
  | none => e

/-- `Player.play_random`, with the random choice injected as an index `pick`
taken modulo the number of candidates. -/
def play_random (gs : GameState) (pick : ℕ) (hand : List Card) : Option Card :=
  if gs.trumps_led ∧ hand.filter (fun c => is_trump c gs.trumps) ≠ [] then
    (hand.filter (fun c => is_trump c gs.trumps)).get?
      (pick % (hand.filter (fun c => is_trump c gs.trumps)).length)
  else hand.get? (pick % hand.length)

/-- `Player.play_highest`. -/
def play_highest (hand : List Card) : Option Card := max_rank hand

/-- `Player.play_lowest`. -/
def play_lowest (gs : GameState) (hand : List Card) : Option Card :=
  if gs.trumps_led then
    fallback (min_rank (hand.filter (fun c => is_trump c gs.trumps))) (min_rank hand)
  else min_rank hand

/-- `Player.play_highest_no_point`. -/
def play_highest_no_point (gs : GameState) (hand : List Card) : Option Card :=
  fallback
    (max_rank ((hand.filter (fun c => is_trump c gs.trumps)).filter (fun c => c.points = 0)))
    (max_rank hand)

/-- The first stage of `Player.play_highest_points`: among the point cards of
maximum point value, excluding the Ace, pick the lowest-rank card excluding
rank 2, or the rank-2 card when it is the only one left. -/
def highest_points_stage (pcs : List Card) : Option Card :=
  if pcs ≠ [] then
    fallback
      (min_rank (((pcs.filter (fun c => c.points = pcs.foldl (fun m c => max m c.points) 0)).filter
        (fun c => c.rank ≠ 17)).filter (fun c => c.rank ≠ 2)))
      (min_rank ((pcs.filter (fun c => c.points = pcs.foldl (fun m c => max m c.points) 0)).filter
        (fun c => c.rank ≠ 17)))
  else none

/-- `Player.play_highest_points`. -/
def play_highest_points (gs : GameState) (hand : List Card) : Option Card :=
  fallback (highest_points_stage (hand.filter (fun c => 0 < c.points)))
    (fallback
      (if gs.trumps_led then min_points_rank (hand.filter (fun c => is_trump c gs.trumps))
       else none)
      (min_rank hand))

/-- `Player.play_lowest_no_point`. -/
def play_lowest_no_point (gs : GameState) (hand : List Card) : Option Card :=
  fallback ((hand.filter (fun c => is_trump c gs.trumps)).filter (fun c => c.rank = 2)).head?
    (fallback
      (min_rank ((hand.filter (fun c => is_trump c gs.trumps)).filter (fun c => c.points = 0)))
      (if hand.filter (fun c => is_trump c gs.trumps) ≠ [] then
        fallback
          (min_rank ((hand.filter (fun c => is_trump c gs.trumps)).filter
            (fun c => c.points = 1)))
          (min_points (hand.filter (fun c => is_trump c gs.trumps)))
       else min_rank hand))

/-- `Player.play_just_higher`. -/
def play_just_higher (gs : GameState) (hand : List Card) : Option Card :=
  fallback
    (min_rank (hand.filter (fun c =>
      highest_played_rank gs.trick < c.rank ∧ c.rank ≠ 2 ∧ c.rank ≠ 3)))
    (play_lowest_no_point gs hand)

/-- `Player.play_single_point`. -/
def play_single_point (gs : GameState) (hand : List Card) : Option Card :=
  fallback (min_rank (hand.filter (fun c => c.points = 1 ∧ c.rank ≠ 2 ∧ c.rank ≠ 17)))
    (fallback (hand.filter (fun c => c.rank = 2)).head?
      (fallback
        (if gs.trumps_led then
          fallback
            (min_rank ((hand.filter (fun c => is_trump c gs.trumps)).filter
              (fun c => c.points = 0)))
            (min_rank (hand.filter (fun c => is_trump c gs.trumps)))
         else none)
        (min_rank hand)))

/-- `Player.play_off`. -/
def play_off (gs : GameState) (hand : List Card) : Option Card :=
  fallback
    (if ¬ gs.trumps_led then (hand.filter (fun c => c.rank < 2)).head? else none)
    (fallback (hand.filter (fun c => c.rank = 2)).head?
      (fallback (min_rank (hand.filter (fun c => c.points = 0)))
        (fallback (min_rank (hand.filter (fun c => c.points = 1)))
          (min_rank hand))))

/-- `Player.play_save_point`. -/
def play_save_point (gs : GameState) (hand : List Card) : Option Card :=
  fallback
    (min_rank (hand.filter (fun c =>
      c.points = 1 ∧ c.rank ≠ 2 ∧ c.rank ≠ 17 ∧ highest_played_rank gs.trick < c.rank)))
    (play_off gs hand)

/-! ## Concrete fixtures used by witnesses and counterexamples -/

instance : DecidableEq (Except String (List Card)) := fun a b =>
  match a, b with
  | .ok x, .ok y =>
    if h : x = y then .isTrue (by rw [h]) else .isFalse (fun hh => by cases hh; exact h rfl)
  | .error x, .error y =>
    if h : x = y then .isTrue (by rw [h]) else .isFalse (fun hh => by cases hh; exact h rfl)
  | .ok _, .error _ => .isFalse (fun hh => by cases hh)
  | .error _, .ok _ => .isFalse (fun hh => by cases hh)

/-- A strength table giving a hand of one Ace a winning strength of 4.5. -/
def t45 : ℕ → ℚ := fun r => if r = 17 then 9/2 else 0

/-- A strength table giving a hand of one Ace a winning strength of 6.8. -/
def t68 : ℕ → ℚ := fun r => if r = 17 then 34/5 else 0

/-- A strength table giving a hand of one Ace a winning strength of 7.9. -/
def t79 : ℕ → ℚ := fun r => if r = 17 then 79/10 else 0

/-- The all-zero strength table. -/
def ztable : ℕ → ℚ := fun _ => 0

/-- A strength table under which all four suit strengths are nonzero. -/
def table1 : ℕ → ℚ := fun r => if r = 17 then 2 else 1

/-- A one-card hand holding the Ace of Spades. -/
def ah : List Card := [mkCard .A .Spades]

/-- A 9-card hand with 4 point trumps in Spades (Ace, Jack, off-jack, 3),
3 zero-point trumps (King, Queen, 9) and 2 non-trump cards. -/
def hand9 : List Card :=
  [mkCard .A .Spades, mkCard .J .Spades, mkCard .J .Clubs, mkCard .N3 .Spades,
   mkCard .K .Spades, mkCard .Q .Spades, mkCard .N9 .Spades,
   mkCard .K .Hearts, mkCard .Q .Diamonds]

/-- A hand of 7 distinct trump cards (in Spades) that all carry points. -/
def seven_hand : List Card :=
  [mkCard .A .Spades, mkCard .J .Spades, mkCard .J .Clubs, mkCard .N3 .Spades,
   mkCard .N2 .Spades, mkCard .T10 .Spades, mkCard .B .Joker]

/-- A simple decision context: Spades trump, trump not led, empty trick. -/
def gs0 : GameState := ⟨some .Spades, false, []⟩

/-! ## Lemmas about the card model -/

lemma set_trump_eq_mk (c : Card) (s : Option Suit) :
    set_trump c s = set_trump (mkCard c.baseSym c.suit) s := by
  cases c; cases s <;> rfl

lemma set_trump_baseSym (c : Card) (s : Option Suit) :
    (set_trump c s).baseSym = c.baseSym := by
  cases s <;> rfl

lemma set_trump_suit (c : Card) (s : Option Suit) :
    (set_trump c s).suit = c.suit := by
  cases s <;> rfl

lemma foldl_set_trump_id (hist : List (Option Suit)) :
    ∀ c : Card, (hist.foldl set_trump c).baseSym = c.baseSym
      ∧ (hist.foldl set_trump c).suit = c.suit := by
  induction hist with
  | nil => intro c; exact ⟨rfl, rfl⟩
  | cons s rest ih =>
    intro c
    have h := ih (set_trump c s)
    simpa [List.foldl_cons, set_trump_baseSym, set_trump_suit] using h

/-- C6: for every card identity and every sequence of prior `set_trump` calls,
the derived attributes produced by a further `set_trump` are a pure function
of (base identity, suit, new trump argument) — the mutation history is
irrelevant — and `set_trump(None)` restores exactly the constructed state. -/
theorem set_trump_reset_and_pure :
    ∀ (n : Sym) (s : Suit) (hist : List (Option Suit)) (s' : Option Suit),
      set_trump (hist.foldl set_trump (mkCard n s)) s' = set_trump (mkCard n s) s'
      ∧ set_trump (hist.foldl set_trump (mkCard n s)) none = mkCard n s := by
  intro n s hist s'
  have h := foldl_set_trump_id hist (mkCard n s)
  have hb : (mkCard n s).baseSym = n := rfl
  have hs : (mkCard n s).suit = s := rfl
  constructor
  · rw [set_trump_eq_mk (hist.foldl set_trump (mkCard n s)) s', h.1, h.2, hb, hs]
  · rw [set_trump_eq_mk (hist.foldl set_trump (mkCard n s)) none, h.1, h.2, hb, hs]
    rfl

/-- C2 (amended): `<` and `>` compare current ranks, while `==` compares only
the base identity (`short_name`), taking no notice of the current rank. -/
theorem card_comparisons_amended :
    ∀ a b : Card,
      (card_lt a b = true ↔ a.rank < b.rank)
      ∧ (card_gt a b = true ↔ b.rank < a.rank)
      ∧ (card_eq a b = true ↔ a.baseSym = b.baseSym ∧ a.suit = b.suit) := by
  intro a b
  refine ⟨?_, ?_, ?_⟩ <;> simp [card_lt, card_gt, card_eq]

/-- C2 counterexample: the same Jack of Spades under two different trump
contexts has different current ranks, yet `==` still holds, so equality does
not require equal current rank. -/
theorem card_eq_ignores_rank :
    card_eq (set_trump (mkCard .J .Spades) (some .Spades))
      (set_trump (mkCard .J .Spades) (some .Clubs)) = true
    ∧ (set_trump (mkCard .J .Spades) (some .Spades)).rank = 14
    ∧ (set_trump (mkCard .J .Spades) (some .Clubs)).rank = 13 := by decide

/-- C2 witness: concrete instance of the comparison characterisation. -/
theorem card_comparisons_amended_example :
    card_eq (mkCard .A .Spades) (mkCard .A .Spades) = true ↔
      (mkCard .A .Spades).baseSym = (mkCard .A .Spades).baseSym
      ∧ (mkCard .A .Spades).suit = (mkCard .A .Spades).suit :=
  (card_comparisons_amended (mkCard .A .Spades) (mkCard .A .Spades)).2.2

/-- C7 (amended): in the base state, a card is trump for a queried suit
exactly when its suit matches, its suit is Joker, its base symbol is the
off-jack marker `X` (such cards are constructible and are trump under every
suit), or it is a Jack of the colour-paired suit, with exactly the pairings
Spades↔Clubs and Hearts↔Diamonds; with no suit argument and no trump set the
card is never trump. -/
theorem is_trump_base_state_amended :
    ∀ (n : Sym) (s q : Suit),
      (is_trump (mkCard n s) (some q) = true ↔
        (s = q ∨ s = Suit.Joker ∨ n = Sym.X ∨
          (n = Sym.J ∧ ((s = Suit.Spades ∧ q = Suit.Clubs) ∨ (s = Suit.Clubs ∧ q = Suit.Spades)
            ∨ (s = Suit.Hearts ∧ q = Suit.Diamonds) ∨ (s = Suit.Diamonds ∧ q = Suit.Hearts)))))
      ∧ is_trump (mkCard n s) none = false := by
  intro n s q
  cases n <;> cases s <;> cases q <;> simp [is_trump, mkCard, color_paired]

/-- C7 counterexample: a card constructed with the off-jack base name `X` is
trump under every suit, although its suit does not match the queried suit, it
is not a Joker-suit card, and it is not a Jack. -/
theorem off_jack_marker_trump_everywhere :
    is_trump (mkCard .X .Hearts) (some .Spades) = true
    ∧ (mkCard .X .Hearts).suit ≠ Suit.Spades
    ∧ (mkCard .X .Hearts).suit ≠ Suit.Joker
    ∧ (mkCard .X .Hearts).baseSym ≠ Sym.J := by decide

/-- C7 witness: the Jack of Spades is trump under Clubs. -/
theorem is_trump_base_state_amended_example :
    is_trump (mkCard .J .Spades) (some .Clubs) = true ↔
      (Suit.Spades = Suit.Clubs ∨ Suit.Spades = Suit.Joker ∨ Sym.J = Sym.X ∨
        (Sym.J = Sym.J ∧ ((Suit.Spades = Suit.Spades ∧ Suit.Clubs = Suit.Clubs)
          ∨ (Suit.Spades = Suit.Clubs ∧ Suit.Clubs = Suit.Spades)
          ∨ (Suit.Spades = Suit.Hearts ∧ Suit.Clubs = Suit.Diamonds)
          ∨ (Suit.Spades = Suit.Diamonds ∧ Suit.Clubs = Suit.Hearts)))) :=
  (is_trump_base_state_amended .J .Spades .Clubs).1

/-! ## The bid loop and the first-maximum rule (C1) -/

lemma step_bid_eq_spec_step (acc : ℚ × Suit) (sb : ℚ) (s : Suit) (h : acc.1 ≠ 0) :
    step_bid acc sb s = spec_step acc sb s := by
  unfold step_bid spec_step
  simp [h]

lemma spec_step_fst_ne (acc : ℚ × Suit) (sb : ℚ) (s : Suit)
    (h1 : acc.1 ≠ 0) (h2 : sb ≠ 0) : (spec_step acc sb s).1 ≠ 0 := by
  unfold spec_step
  split_ifs <;> simpa

lemma spec_step_fst_max (acc : ℚ × Suit) (sb : ℚ) (s : Suit) :
    (spec_step acc sb s).1 = max acc.1 sb := by
  unfold spec_step
  split_ifs with h
  · exact (max_eq_right h.le).symm
  · exact (max_eq_left (le_of_not_lt h)).symm

/-- C1 (amended): the bid loop replaces the incumbent suit when the new
suit's strength is strictly greater or when the incumbent's recorded strength
is 0 (Python falsiness re-triggers the initialisation branch); consequently,
whenever all four rounded suit strengths are nonzero, the recorded suit is
the one given by the spec's first-maximum rule, whose strength component is
the maximum of the four suit strengths. -/
theorem bid_first_max_amended :
    ∀ (table : ℕ → ℚ) (hand : List Card),
      suit_strength table hand .Spades ≠ 0 →
      suit_strength table hand .Hearts ≠ 0 →
      suit_strength table hand .Clubs ≠ 0 →
      suit_strength table hand .Diamonds ≠ 0 →
      choose_bid table hand = spec_first_max_suit table hand
      ∧ (spec_first_max_suit table hand).1 =
          max (max (max (suit_strength table hand .Spades) (suit_strength table hand .Hearts))
            (suit_strength table hand .Clubs)) (suit_strength table hand .Diamonds) := by
  intro table hand hS hH hC hD
  have h1 : ((suit_strength table hand .Spades, Suit.Spades) : ℚ × Suit).1 ≠ 0 := hS
  have e1 := step_bid_eq_spec_step (suit_strength table hand .Spades, Suit.Spades)
    (suit_strength table hand .Hearts) .Hearts h1
  have h2 := spec_step_fst_ne (suit_strength table hand .Spades, Suit.Spades)
    (suit_strength table hand .Hearts) .Hearts h1 hH
  have e2 := step_bid_eq_spec_step _ (suit_strength table hand .Clubs) .Clubs h2
  have h3 := spec_step_fst_ne _ (suit_strength table hand .Clubs) .Clubs h2 hC
  have e3 := step_bid_eq_spec_step _ (suit_strength table hand .Diamonds) .Diamonds h3
  constructor
  · unfold choose_bid spec_first_max_suit
    rw [e1, e2, e3]
  · unfold spec_first_max_suit
    rw [spec_step_fst_max, spec_step_fst_max, spec_step_fst_max]

/-- C1 counterexample: with the all-zero strength table every suit strength
is 0 and ties, so the claimed rule would record Spades (the first maximum),
but the code records Diamonds: the falsy incumbent is replaced by every later
suit. -/
theorem bid_zero_strength_records_last_suit :
    (choose_bid ztable ah).2 = Suit.Diamonds
    ∧ (spec_first_max_suit ztable ah).2 = Suit.Spades
    ∧ suit_strength ztable ah .Spades = suit_strength ztable ah .Diamonds := by
  refine ⟨?_, ?_, ?_⟩ <;>
    simp [choose_bid, spec_first_max_suit, step_bid, spec_step, suit_strength, round2,
      roundHalfEven, set_trump, get_trump_symbol, is_trump, mkCard, card_rank, card_points,
      color_paired, ztable, ah]

/-- C1 witness: a table under which all four suit strengths are nonzero. -/
theorem bid_first_max_amended_example :
    choose_bid table1 ah = spec_first_max_suit table1 ah :=
  (bid_first_max_amended table1 ah
    (by
      simp [suit_strength, round2, roundHalfEven, set_trump, get_trump_symbol, is_trump,
        mkCard, card_rank, card_points, color_paired, table1, ah]
      norm_num [Int.fract])
    (by
      simp [suit_strength, round2, roundHalfEven, set_trump, get_trump_symbol, is_trump,
        mkCard, card_rank, card_points, color_paired, table1, ah])
    (by
      simp [suit_strength, round2, roundHalfEven, set_trump, get_trump_symbol, is_trump,
        mkCard, card_rank, card_points, color_paired, table1, ah])
    (by
      simp [suit_strength, round2, roundHalfEven, set_trump, get_trump_symbol, is_trump,
        mkCard, card_rank, card_points, color_paired, table1, ah])).1

/-! ## The bid pipeline: concrete clamping cases (C4) and monotonicity (C5) -/

/-- C4: the final clamping steps of the bid pipeline on three concrete
hand/table combinations whose winning strengths are 4.5, 6.8 and 7.9: with
`current_bid = 0` a strength of 4.5 truncates to 4 and passes (0); with
`current_bid = 5` a strength of 6.8 yields 6 (`current_bid + 1`); with
`current_bid = 0` a strength of 7.9 truncates to 7 and is capped to 6. -/
theorem evaluate_bid_clamping_cases :
    (default_bid_strategy none 0 0 t45 ah 0 none).1 = 0
    ∧ (default_bid_strategy none 0 0 t68 ah 5 none).1 = 6
    ∧ (default_bid_strategy none 0 0 t79 ah 0 none).1 = 6 := by
  refine ⟨?_, ?_, ?_⟩ <;>
    simp [default_bid_strategy, choose_bid, step_bid, suit_strength, round2, roundHalfEven,
      pyInt, clamp_min_bid, finalize_bid, is_partner, set_trump, get_trump_symbol, is_trump,
      mkCard, card_rank, card_points, color_paired, t45, t68, t79, ah] <;>
    norm_num [Int.fract]

lemma pyInt_mono {q1 q2 : ℚ} (h : q1 ≤ q2) : pyInt q1 ≤ pyInt q2 := by
  unfold pyInt
  rcases le_or_lt 0 q1 with h1 | h1 <;> rcases le_or_lt 0 q2 with h2 | h2
  · rw [if_pos h1, if_pos h2]
    exact Int.floor_le_floor h
  · exact absurd (h1.trans h) (not_le.mpr h2)
  · rw [if_neg (not_le.mpr h1), if_pos h2]
    have ha : (0 : ℤ) ≤ ⌊q2⌋ := Int.floor_nonneg.mpr h2
    have hb : (0 : ℤ) ≤ ⌊-q1⌋ := Int.floor_nonneg.mpr (by linarith)
    omega
  · rw [if_neg (not_le.mpr h1), if_neg (not_le.mpr h2)]
    have : ⌊-q2⌋ ≤ ⌊-q1⌋ := Int.floor_le_floor (by linarith)
    omega

lemma clamp_min_bid_mono {t1 t2 : ℤ} (h : t1 ≤ t2) :
    clamp_min_bid t1 ≤ clamp_min_bid t2 := by
  unfold clamp_min_bid
  split_ifs <;> omega

lemma clamp_min_bid_nonneg (t : ℤ) : 0 ≤ clamp_min_bid t := by
  unfold clamp_min_bid
  split_ifs <;> omega

lemma finalize_bid_mono (cb : ℤ) {t1 t2 : ℤ} (h0 : 0 ≤ t1) (h : t1 ≤ t2) :
    finalize_bid cb t1 ≤ finalize_bid cb t2 := by
  unfold finalize_bid
  split_ifs <;> omega

/-- C5: for a fixed hand, strength table, restraint, position, current bid and
current bidder, the final bid returned by `default_bid_strategy` is monotone
in the aggressiveness parameter: it never decreases through the restraint
clamp, truncation, minimum-bid pass, overbid pass, `current_bid + 1` clamp
and the no-opening-7 cap. -/
theorem bid_monotone_in_aggressiveness :
    ∀ (pos : Option ℤ) (restraint : ℚ) (table : ℕ → ℚ) (hand : List Card)
      (cb : ℤ) (bidder : Option ℤ) (a1 a2 : ℚ), a1 ≤ a2 →
      (default_bid_strategy pos a1 restraint table hand cb bidder).1
        ≤ (default_bid_strategy pos a2 restraint table hand cb bidder).1 := by
  intro pos restraint table hand cb bidder a1 a2 h
  unfold default_bid_strategy
  simp only
  apply finalize_bid_mono cb (clamp_min_bid_nonneg _)
  apply clamp_min_bid_mono
  apply pyInt_mono
  by_cases hp : is_partner pos bidder = true
  · rw [if_pos hp, if_pos hp]
    exact max_le_max le_rfl (by linarith)
  · rw [if_neg hp, if_neg hp]
    linarith

/-- C5 witness: raising aggressiveness from 0 to 1 on a concrete hand does
not decrease the bid. -/
theorem bid_monotone_in_aggressiveness_example :
    (default_bid_strategy none 0 0 t68 ah 5 none).1
      ≤ (default_bid_strategy none 1 0 t68 ah 5 none).1 :=
  bid_monotone_in_aggressiveness none 0 t68 ah 5 none 0 1 (by norm_num)

/-! ## The discard engine: misdeal, overflow and the size ceiling (C3, C8, C9) -/

lemma length_point_add_non_point (l : List Card) :
    (point_cards l).length + (non_point_cards l).length = l.length := by
  induction l with
  | nil => rfl
  | cons x xs ih =>
    by_cases hx : x.points = 0
    · have h1 : ¬ 0 < x.points := by omega
      simp [point_cards, non_point_cards, List.filter_cons, hx, h1] at ih ⊢
      omega
    · have h1 : 0 < x.points := Nat.pos_of_ne_zero hx
      simp [point_cards, non_point_cards, List.filter_cons, hx, h1] at ih ⊢
      omega

lemma sort_by_rank_length (l : List Card) : (sort_by_rank l).length = l.length :=
  (List.perm_insertionSort rank_ge l).length_eq

lemma sort_by_rank_mem {c : Card} {l : List Card} : c ∈ sort_by_rank l ↔ c ∈ l :=
  (List.perm_insertionSort rank_ge l).mem_iff

/-- The discard engine with its final test rephrased on the unsorted list
(sorting preserves length). -/
lemma discard_result (suit : Suit) (b : Bool) (hand : List Card) :
    discard_non_trumps suit b hand =
      (if 6 < (if b then pad_hand (nontrump_filter suit hand)
                  (overflow_trim (trump_filter suit hand))
                else overflow_trim (trump_filter suit hand)).length
       then Except.error "Misdeal: Too many point cards in hand."
       else Except.ok (sort_by_rank (if b then pad_hand (nontrump_filter suit hand)
                  (overflow_trim (trump_filter suit hand))
                else overflow_trim (trump_filter suit hand)))) := by
  unfold discard_non_trumps
  simp only [sort_by_rank_length]

lemma overflow_trim_length_le {cards : List Card}
    (h : (point_cards cards).length ≤ 6) : (overflow_trim cards).length ≤ 6 := by
  unfold overflow_trim
  split_ifs with h6
  · rw [List.length_append]
    have hk : (0 : ℤ) ≤ 6 - ((point_cards cards).length : ℤ) := by omega
    rw [pyTake, if_pos hk]
    have := List.length_take_le (6 - ((point_cards cards).length : ℤ)).toNat
      (sort_by_rank (non_point_cards cards))
    omega
  · omega

lemma overflow_trim_length_gt {cards : List Card}
    (h : 6 < (point_cards cards).length) : 6 < (overflow_trim cards).length := by
  unfold overflow_trim
  have hc : 6 < cards.length :=
    lt_of_lt_of_le h (List.length_filter_le _ cards)
  rw [if_pos hc, List.length_append]
  omega

lemma pad_hand_length_le {saved cards : List Card} (h : cards.length ≤ 6) :
    (pad_hand saved cards).length ≤ 6 := by
  unfold pad_hand
  split_ifs with h6
  · rw [List.length_append]
    have := List.length_take_le (6 - cards.length) saved
    omega
  · exact h

lemma le_pad_hand_length (saved cards : List Card) :
    cards.length ≤ (pad_hand saved cards).length := by
  unfold pad_hand
  split_ifs
  · rw [List.length_append]; omega
  · exact le_rfl

lemma mem_pad_hand {c : Card} {saved cards : List Card} (h : c ∈ cards) :
    c ∈ pad_hand saved cards := by
  unfold pad_hand
  split_ifs
  · exact List.mem_append_left _ h
  · exact h

lemma point_mem_overflow_trim {c : Card} {cards : List Card}
    (h : c ∈ point_cards cards) : c ∈ overflow_trim cards := by
  unfold overflow_trim
  split_ifs
  · exact List.mem_append_left _ h
  · exact List.mem_of_mem_filter h

/-- C3: `discard_non_trumps` raises the misdeal error exactly when the hand
holds more than 6 trump cards with nonzero points (for the given suit), for
bidder and non-bidder alike; and on a normal return every point-valued trump
card is still present in the resulting hand (point cards are never silently
truncated). -/
theorem misdeal_iff_seven_point_trumps :
    ∀ (suit : Suit) (b : Bool) (hand : List Card),
      ((∃ e, discard_non_trumps suit b hand = Except.error e) ↔
        6 < (point_cards (trump_filter suit hand)).length)
      ∧ (∀ res, discard_non_trumps suit b hand = Except.ok res →
          ∀ c ∈ point_cards (trump_filter suit hand), c ∈ res) := by
  intro suit b hand
  rw [discard_result]
  rcases le_or_lt (point_cards (trump_filter suit hand)).length 6 with hP | hP
  · have h1 : (overflow_trim (trump_filter suit hand)).length ≤ 6 :=
      overflow_trim_length_le hP
    have h2 : (if b then pad_hand (nontrump_filter suit hand)
        (overflow_trim (trump_filter suit hand))
        else overflow_trim (trump_filter suit hand)).length ≤ 6 := by
      split_ifs
      · exact pad_hand_length_le h1
      · exact h1
    rw [if_neg (by omega)]
    constructor
    · constructor
      · rintro ⟨e, he⟩
        cases he
      · intro hcontra
        omega
    · intro res hres c hc
      have hres2 : res = sort_by_rank (if b then pad_hand (nontrump_filter suit hand)
          (overflow_trim (trump_filter suit hand))
          else overflow_trim (trump_filter suit hand)) := by
        cases hres
        rfl
      subst hres2
      rw [sort_by_rank_mem]
      have hm : c ∈ overflow_trim (trump_filter suit hand) := point_mem_overflow_trim hc
      split_ifs
      · exact mem_pad_hand hm
      · exact hm
  · have h1 : 6 < (overflow_trim (trump_filter suit hand)).length :=
      overflow_trim_length_gt hP
    have h2 : 6 < (if b then pad_hand (nontrump_filter suit hand)
        (overflow_trim (trump_filter suit hand))
        else overflow_trim (trump_filter suit hand)).length := by
      split_ifs
      · exact lt_of_lt_of_le h1 (le_pad_hand_length _ _)
      · exact h1
    rw [if_pos h2]
    refine ⟨⟨fun _ => hP, fun _ => ⟨_, rfl⟩⟩, ?_⟩
    intro res hres
    cases hres

/-- C3 witness: a hand of 7 distinct all-point trump cards raises the
misdeal error, and on a normal return a point trump stays in the hand. -/
theorem misdeal_iff_seven_point_trumps_example :
    (∃ e, discard_non_trumps .Spades false seven_hand = Except.error e)
    ∧ set_trump (mkCard .A .Spades) (some .Spades) ∈
        [set_trump (mkCard .A .Spades) (some .Spades)] :=
  ⟨(misdeal_iff_seven_point_trumps .Spades false seven_hand).1.mpr (by decide),
   (misdeal_iff_seven_point_trumps .Spades false ah).2
     [set_trump (mkCard .A .Spades) (some .Spades)] (by decide)
     (set_trump (mkCard .A .Spades) (some .Spades)) (by decide)⟩

/-- C9: the size-6 ceiling is a hard invariant: whenever `discard_non_trumps`
returns normally the hand holds at most 6 cards, and the bidder-padding step
applied to a hand below 6 cards can never push it above 6. -/
theorem discard_size_ceiling :
    (∀ (suit : Suit) (b : Bool) (hand res : List Card),
      discard_non_trumps suit b hand = Except.ok res → res.length ≤ 6)
    ∧ (∀ saved cards : List Card, cards.length < 6 →
        (pad_hand saved cards).length ≤ 6) := by
  constructor
  · intro suit b hand res h
    rw [discard_result] at h
    split_ifs at h <;> cases h <;> (rw [sort_by_rank_length]; omega)
  · intro saved cards h
    exact pad_hand_length_le (by omega)

/-- C9 witness: concrete instances of both the ceiling and the padding bound. -/
theorem discard_size_ceiling_example :
    (sort_by_rank [set_trump (mkCard .A .Spades) (some .Spades)]).length ≤ 6
    ∧ (pad_hand ah []).length ≤ 6 :=
  ⟨discard_size_ceiling.1 .Spades false ah
      (sort_by_rank [set_trump (mkCard .A .Spades) (some .Spades)]) (by decide),
   discard_size_ceiling.2 ah [] (by decide)⟩

/-- C8: for every hand whose trumped version holds exactly 4 point trumps and
3 zero-point trumps (so 7 trumps in a 9-card hand), the non-bidder discard
keeps exactly the 4 point cards plus the slice of the 2 highest-rank
zero-point trumps (stable sort, ties broken by original order), sorted
descending by rank, with final size 6; every kept zero-point trump ranks at
least as high as every discarded one. -/
theorem discard_overflow_keeps_points :
    ∀ (suit : Suit) (hand : List Card),
      hand.length = 9 →
      (point_cards (trump_filter suit hand)).length = 4 →
      (non_point_cards (trump_filter suit hand)).length = 3 →
      discard_non_trumps suit false hand =
        Except.ok (sort_by_rank (point_cards (trump_filter suit hand) ++
          (sort_by_rank (non_point_cards (trump_filter suit hand))).take 2))
      ∧ (sort_by_rank (point_cards (trump_filter suit hand) ++
          (sort_by_rank (non_point_cards (trump_filter suit hand))).take 2)).length = 6
      ∧ List.Sorted rank_ge (sort_by_rank (point_cards (trump_filter suit hand) ++
          (sort_by_rank (non_point_cards (trump_filter suit hand))).take 2))
      ∧ ∀ a ∈ (sort_by_rank (non_point_cards (trump_filter suit hand))).take 2,
          ∀ d ∈ (sort_by_rank (non_point_cards (trump_filter suit hand))).drop 2,
            d.rank ≤ a.rank := by
  intro suit hand h9 hp hn
  have hT : 6 < (trump_filter suit hand).length := by
    have := length_point_add_non_point (trump_filter suit hand)
    omega
  have hsn : (sort_by_rank (non_point_cards (trump_filter suit hand))).length = 3 := by
    rw [sort_by_rank_length, hn]
  have htrim : overflow_trim (trump_filter suit hand) =
      point_cards (trump_filter suit hand) ++
        (sort_by_rank (non_point_cards (trump_filter suit hand))).take 2 := by
    unfold overflow_trim
    rw [if_pos hT]
    congr 1
    unfold pyTake
    rw [hp]
    norm_num
    omega
  have hlen : (sort_by_rank (point_cards (trump_filter suit hand) ++
      (sort_by_rank (non_point_cards (trump_filter suit hand))).take 2)).length = 6 := by
    rw [sort_by_rank_length, List.length_append, List.length_take, hp, hsn]
    omega
  have hsorted : List.Sorted rank_ge (sort_by_rank (point_cards (trump_filter suit hand) ++
      (sort_by_rank (non_point_cards (trump_filter suit hand))).take 2)) :=
    List.sorted_insertionSort rank_ge _
  refine ⟨?_, hlen, hsorted, ?_⟩
  · rw [discard_result]
    simp only [Bool.false_eq_true, if_false]
    rw [htrim, if_neg (by rw [List.length_append, List.length_take, hp, hsn]; omega)]
  · have hs2 : List.Sorted rank_ge (sort_by_rank (non_point_cards (trump_filter suit hand))) :=
      List.sorted_insertionSort rank_ge _
    have hsplit := List.take_append_drop 2
      (sort_by_rank (non_point_cards (trump_filter suit hand)))
    rw [← hsplit] at hs2
    have hpair := (List.pairwise_append.mp hs2).2.2
    intro a ha d hd
    exact hpair a ha d hd

/-- C8 witness: the concrete 9-card hand `hand9` under Spades ends with
exactly 6 cards. -/
theorem discard_overflow_keeps_points_example :
    (sort_by_rank (point_cards (trump_filter .Spades hand9) ++
      (sort_by_rank (non_point_cards (trump_filter .Spades hand9))).take 2)).length = 6 :=
  (discard_overflow_keeps_points .Spades hand9 (by decide) (by decide) (by decide)).2.1

/-! ## Play strategies select a card from the hand (C10) -/

lemma foldl_best_mem (better : Card → Card → Bool) :
    ∀ (xs : List Card) (x : Card),
      xs.foldl (fun acc c => if better c acc then c else acc) x ∈ x :: xs := by
  intro xs
  induction xs with
  | nil => intro x; exact List.mem_singleton.mpr rfl
  | cons y ys ih =>
    intro x
    simp only [List.foldl_cons]
    rcases List.mem_cons.mp (ih (if better y x then y else x)) with h1 | h1
    · rw [h1]
      by_cases hb : better y x
      · rw [if_pos hb]
        exact List.mem_cons_of_mem x (List.mem_cons_self y ys)
      · rw [if_neg hb]
        exact List.mem_cons_self x _
    · exact List.mem_cons_of_mem x (List.mem_cons_of_mem y h1)

lemma pyBest_mem {better : Card → Card → Bool} {l : List Card} {c : Card}
    (h : pyBest better l = some c) : c ∈ l := by
  cases l with
  | nil => cases h
  | cons x xs =>
    have h2 : xs.foldl (fun acc d => if better d acc then d else acc) x = c :=
      Option.some.inj h
    rw [← h2]
    exact foldl_best_mem better xs x

lemma pyBest_spec (better : Card → Card → Bool) (l : List Card) (h : l ≠ []) :
    ∃ c, pyBest better l = some c ∧ c ∈ l := by
  cases l with
  | nil => exact absurd rfl h
  | cons x xs => exact ⟨_, rfl, foldl_best_mem better xs x⟩

lemma head?_mem {l : List Card} {c : Card} (h : l.head? = some c) : c ∈ l := by
  cases l with
  | nil => cases h
  | cons x xs =>
    have h2 : x = c := Option.some.inj h
    rw [← h2]
    exact List.mem_cons_self x xs

lemma get_mod_spec (l : List Card) (pick : ℕ) (h : l ≠ []) :
    ∃ c, l.get? (pick % l.length) = some c ∧ c ∈ l := by
  have hl : 0 < l.length := List.length_pos.mpr h
  have hm : pick % l.length < l.length := Nat.mod_lt _ hl
  exact ⟨l.get ⟨_, hm⟩, List.get?_eq_get hm, List.get_mem l _ _⟩

lemma fallback_spec {o e : Option Card} {hand : List Card}
    (h1 : ∀ c, o = some c → c ∈ hand)
    (h2 : ∃ c, e = some c ∧ c ∈ hand) :
    ∃ c, fallback o e = some c ∧ c ∈ hand := by
  cases o with
  | some c => exact ⟨c, rfl, h1 c rfl⟩
  | none => exact h2

lemma min_rank_filter_mem {p : Card → Bool} {hand : List Card} :
    ∀ c, min_rank (hand.filter p) = some c → c ∈ hand :=
  fun _ h => List.mem_of_mem_filter (pyBest_mem h)

lemma max_rank_filter_mem {p : Card → Bool} {hand : List Card} :
    ∀ c, max_rank (hand.filter p) = some c → c ∈ hand :=
  fun _ h => List.mem_of_mem_filter (pyBest_mem h)

lemma head?_filter_mem {p : Card → Bool} {hand : List Card} :
    ∀ c, (hand.filter p).head? = some c → c ∈ hand :=
  fun _ h => List.mem_of_mem_filter (head?_mem h)

lemma play_random_spec (gs : GameState) (pick : ℕ) (hand : List Card) (h : hand ≠ []) :
    ∃ c, play_random gs pick hand = some c ∧ c ∈ hand := by
  unfold play_random
  split_ifs with hc
  · obtain ⟨c, hg, hm⟩ := get_mod_spec _ pick hc.2
    exact ⟨c, hg, List.mem_of_mem_filter hm⟩
  · exact get_mod_spec hand pick h

lemma play_highest_spec (hand : List Card) (h : hand ≠ []) :
    ∃ c, play_highest hand = some c ∧ c ∈ hand :=
  pyBest_spec _ hand h

lemma play_lowest_spec (gs : GameState) (hand : List Card) (h : hand ≠ []) :
    ∃ c, play_lowest gs hand = some c ∧ c ∈ hand := by
  unfold play_lowest
  split_ifs
  · exact fallback_spec min_rank_filter_mem (pyBest_spec _ hand h)
  · exact pyBest_spec _ hand h

lemma play_highest_no_point_spec (gs : GameState) (hand : List Card) (h : hand ≠ []) :
    ∃ c, play_highest_no_point gs hand = some c ∧ c ∈ hand := by
  unfold play_highest_no_point
  refine fallback_spec ?_ (pyBest_spec _ hand h)
  intro c hc
  exact List.mem_of_mem_filter (List.mem_of_mem_filter (pyBest_mem hc))

lemma highest_points_stage_mem {hand : List Card} :
    ∀ c, highest_points_stage (hand.filter (fun c => 0 < c.points)) = some c → c ∈ hand := by
  intro c hc
  unfold highest_points_stage at hc
  split_ifs at hc
  · unfold fallback at hc
    rcases hmr : min_rank ((((hand.filter (fun c => 0 < c.points)).filter _).filter _).filter _)
      with _ | d
    · rw [hmr] at hc
      exact List.mem_of_mem_filter (List.mem_of_mem_filter
        (List.mem_of_mem_filter (pyBest_mem hc)))
    · rw [hmr] at hc
      have hd : d = c := Option.some.inj hc
      subst hd
      exact List.mem_of_mem_filter (List.mem_of_mem_filter
        (List.mem_of_mem_filter (List.mem_of_mem_filter (pyBest_mem hmr))))

lemma play_highest_points_spec (gs : GameState) (hand : List Card) (h : hand ≠ []) :
    ∃ c, play_highest_points gs hand = some c ∧ c ∈ hand := by
  unfold play_highest_points
  refine fallback_spec highest_points_stage_mem (fallback_spec ?_ (pyBest_spec _ hand h))
  intro c hc
  split_ifs at hc
  exact List.mem_of_mem_filter (pyBest_mem hc)

lemma play_lowest_no_point_spec (gs : GameState) (hand : List Card) (h : hand ≠ []) :
    ∃ c, play_lowest_no_point gs hand = some c ∧ c ∈ hand := by
  unfold play_lowest_no_point
  refine fallback_spec ?_ (fallback_spec ?_ ?_)
  · intro c hc
    exact List.mem_of_mem_filter (List.mem_of_mem_filter (head?_mem hc))
  · intro c hc
    exact List.mem_of_mem_filter (List.mem_of_mem_filter (pyBest_mem hc))
  · split_ifs with htc
    · refine fallback_spec ?_ ?_
      · intro c hc
        exact List.mem_of_mem_filter (List.mem_of_mem_filter (pyBest_mem hc))
      · obtain ⟨c, hc, hm⟩ := pyBest_spec (fun c acc => c.points < acc.points) _ htc
        exact ⟨c, hc, List.mem_of_mem_filter hm⟩
    · exact pyBest_spec _ hand h

lemma play_just_higher_spec (gs : GameState) (hand : List Card) (h : hand ≠ []) :
    ∃ c, play_just_higher gs hand = some c ∧ c ∈ hand := by
  unfold play_just_higher
  exact fallback_spec min_rank_filter_mem (play_lowest_no_point_spec gs hand h)

lemma play_single_point_spec (gs : GameState) (hand : List Card) (h : hand ≠ []) :
    ∃ c, play_single_point gs hand = some c ∧ c ∈ hand := by
  unfold play_single_point
  refine fallback_spec min_rank_filter_mem
    (fallback_spec head?_filter_mem (fallback_spec ?_ (pyBest_spec _ hand h)))
  intro c hc
  split_ifs at hc
  · unfold fallback at hc
    rcases hmr : min_rank ((hand.filter (fun c => is_trump c gs.trumps)).filter
        (fun c => c.points = 0)) with _ | d
    · rw [hmr] at hc
      exact List.mem_of_mem_filter (pyBest_mem hc)
    · rw [hmr] at hc
      have hd : d = c := Option.some.inj hc
      subst hd
      exact List.mem_of_mem_filter (List.mem_of_mem_filter (pyBest_mem hmr))

lemma play_off_spec (gs : GameState) (hand : List Card) (h : hand ≠ []) :
    ∃ c, play_off gs hand = some c ∧ c ∈ hand := by
  unfold play_off
  refine fallback_spec ?_ (fallback_spec head?_filter_mem
    (fallback_spec min_rank_filter_mem
      (fallback_spec min_rank_filter_mem (pyBest_spec _ hand h))))
  intro c hc
  split_ifs at hc
  exact List.mem_of_mem_filter (head?_mem hc)

lemma play_save_point_spec (gs : GameState) (hand : List Card) (h : hand ≠ []) :
    ∃ c, play_save_point gs hand = some c ∧ c ∈ hand := by
  unfold play_save_point
  exact fallback_spec min_rank_filter_mem (play_off_spec gs hand h)

/-- C10: every play-strategy variant, on every non-empty hand and every
decision context (trump suit, trumps-led flag, trick so far, injected random
index), returns exactly one card that is present in the hand; the strategies
are pure functions of (hand, context) and leave the hand unchanged. -/
theorem play_strategies_return_card_in_hand :
    ∀ (gs : GameState) (pick : ℕ) (hand : List Card), hand ≠ [] →
      (∃ c, play_random gs pick hand = some c ∧ c ∈ hand)
      ∧ (∃ c, play_highest hand = some c ∧ c ∈ hand)
      ∧ (∃ c, play_lowest gs hand = some c ∧ c ∈ hand)
      ∧ (∃ c, play_highest_no_point gs hand = some c ∧ c ∈ hand)
      ∧ (∃ c, play_highest_points gs hand = some c ∧ c ∈ hand)
      ∧ (∃ c, play_just_higher gs hand = some c ∧ c ∈ hand)
      ∧ (∃ c, play_lowest_no_point gs hand = some c ∧ c ∈ hand)
      ∧ (∃ c, play_single_point gs hand = some c ∧ c ∈ hand)
      ∧ (∃ c, play_save_point gs hand = some c ∧ c ∈ hand)
      ∧ (∃ c, play_off gs hand = some c ∧ c ∈ hand) := by
  intro gs pick hand h
  exact ⟨play_random_spec gs pick hand h, play_highest_spec hand h,
    play_lowest_spec gs hand h, play_highest_no_point_spec gs hand h,
    play_highest_points_spec gs hand h, play_just_higher_spec gs hand h,
    play_lowest_no_point_spec gs hand h, play_single_point_spec gs hand h,
    play_save_point_spec gs hand h, play_off_spec gs hand h⟩

/-- C10 witness: the random strategy on a concrete one-card hand. -/
theorem play_strategies_return_card_in_hand_example :
    ∃ c, play_random gs0 0 [mkCard .A .Spades] = some c ∧ c ∈ [mkCard .A .Spades] :=
  (play_strategies_return_card_in_hand gs0 0 [mkCard .A .Spades] (by decide)).1

end Pitch
